import Mathlib

/-!
Shallow embedding of the kumojs bytecode virtual machine.

The embedded program is the VM of `src/unnamed/part_000` (classes
`VirtualFunction`, `StackFrame`, `VM`): a fetch-decode-execute loop over a
byte buffer, an evaluation stack of runtime values, and a call stack of
frames.  JS semantics that matter here and how they are rendered:

* `Uint8Array(code)` clamps every element with ToUint8, i.e. `% 256`.
* Indexing a `Uint8Array` out of bounds yields `undefined`; `readUInt8`
  therefore returns an `Option Nat`.  Where the JS feeds such a value to
  `DataView.setUint8` or a bitwise operator, ToNumber/ToInt32 turn
  `undefined` into `0`, rendered with `List.getD _ _ 0`.
* JS bitwise operators (`|`, `<<`) work on 32-bit twos-complement signed
  integers: both operands pass through ToInt32 and the result is a signed
  32-bit value; see `toInt32`, `jsOr`, `jsShl`.
* `Array.prototype.pop` on an empty array returns `undefined` and leaves
  the array empty; see `pop`.
* A 64-bit float is only ever decoded from bytes and transported, never
  computed with, so a float value is modeled by its 64-bit IEEE-754 bit
  pattern assembled little-endian (`readFloat64`).
* JS arrays push/pop at the tail; the model uses Lean lists with the head
  as the stack top.
* `RegExp` objects are modeled as their pattern and flags code-unit lists;
  host-engine flag validation is outside the decoded data this VM handles.
-/

/-- Runtime values the evaluation stack can hold.  Strings are lists of
code units (`String.fromCharCode` on the collected bytes); a float is
carried as its 64-bit IEEE-754 bit pattern; `undefined` doubles as the JS
`undefined` produced by popping an empty array or by `run()` returning
without a value. -/
inductive Value where
  | str (codeUnits : List Nat)
  | float (bits : Nat)
  | bool (b : Bool)
  | null
  | undefined
  | regex (pattern : List Nat) (flags : List Nat)
  deriving Repr, DecidableEq

/-- The mutable fields of a `VM` object, in constructor order:
`this.functions`, `this.ip`, `this.stack`, `this.callStack`,
`this.bytecode`.  A `StackFrame` only stores the code of its function, so the
call stack is a list of code buffers, head = most recently pushed frame. -/
structure State where
  functions : List (List Nat)
  ip : Nat
  stack : List Value
  callStack : List (List Nat)
  bytecode : List Nat
  deriving Repr, DecidableEq

/-- `new VirtualFunction(code)`: `this.code = new Uint8Array(code)`,
which clamps each element to a byte. -/
def VirtualFunction.mk (code : List Nat) : List Nat :=
  code.map (fun b => b % 256)

/-- `new VM(bytecode)`: build the function table, set `ip = 0`, empty
stack, call stack holding one frame for `functions[0]`, and make
`functions[0].code` the current buffer.  (On an empty module the JS
constructor throws reading `functions[0].code`; `headD []` stands in for
that inapplicable case and no claim exercises it.) -/
def VM.mk (module : List (List Nat)) : State :=
  let functions := module.map VirtualFunction.mk
  { functions := functions
    ip := 0
    stack := []
    callStack := [functions.headD []]
    bytecode := functions.headD [] }

/-- `readUInt8()`: `return this.bytecode[++this.ip]` — pre-increments the
instruction pointer, then reads; out of bounds yields `undefined`
(`none`).  Returns the value and the updated `ip`. -/
def readUInt8 (bytecode : List Nat) (ip : Nat) : Option Nat × Nat :=
  (bytecode[ip + 1]?, ip + 1)

/-- JS ToInt32: wrap an integer to the signed 32-bit range. -/
def toInt32 (n : Int) : Int :=
  let m := n % (4294967296 : Int)
  if m < 2147483648 then m else m - 4294967296

/-- JS ToUint32: the 32-bit pattern of an integer, as a natural number. -/
def toUint32 (n : Int) : Nat :=
  (n % (4294967296 : Int)).toNat

/-- JS `a | b`: bitwise or of the 32-bit patterns, result read as a
signed 32-bit integer. -/
def jsOr (a b : Int) : Int :=
  toInt32 (Int.ofNat (Nat.lor (toUint32 a) (toUint32 b)))

/-- JS `a << k`: shift the 32-bit pattern left by `k % 32`, result read
as a signed 32-bit integer. -/
def jsShl (a : Int) (k : Nat) : Int :=
  toInt32 (Int.ofNat (toUint32 a <<< (k % 32)))

/-- `readUInt16()`: `this.bytecode[++this.ip] | (this.bytecode[++this.ip] << 8)`.
Out-of-bounds bytes are `undefined`, which ToInt32 sends to `0` (`getD _ _ 0`).
Returns the composed value and the updated `ip`. -/
def readUInt16 (bytecode : List Nat) (ip : Nat) : Int × Nat :=
  (jsOr (Int.ofNat (bytecode.getD (ip + 1) 0))
        (jsShl (Int.ofNat (bytecode.getD (ip + 2) 0)) 8),
   ip + 2)

/-- `readUInt32()`: four successive bytes composed with `|` and shifts of
8, 16 and 24 — note the JS result is a *signed* 32-bit integer. -/
def readUInt32 (bytecode : List Nat) (ip : Nat) : Int × Nat :=
  (jsOr (jsOr (jsOr (Int.ofNat (bytecode.getD (ip + 1) 0))
                    (jsShl (Int.ofNat (bytecode.getD (ip + 2) 0)) 8))
              (jsShl (Int.ofNat (bytecode.getD (ip + 3) 0)) 16))
        (jsShl (Int.ofNat (bytecode.getD (ip + 4) 0)) 24),
   ip + 4)

/-- `readFloat64()`: eight `readUInt8` calls fill a `DataView` at offsets
0..7, then `getFloat64(0, true)` reads them little-endian; byte `i` is
the `i`-th least significant byte of the 64-bit pattern.  An out-of-range
`readUInt8` gives `undefined`, which `setUint8` stores as `0`.  Returns
the assembled bit pattern and the updated `ip` (advanced by 8). -/
def readFloat64 (bytecode : List Nat) (ip : Nat) : Nat × Nat :=
  (bytecode.getD (ip + 1) 0 +
   bytecode.getD (ip + 2) 0 * 256 +
   bytecode.getD (ip + 3) 0 * 65536 +
   bytecode.getD (ip + 4) 0 * 16777216 +
   bytecode.getD (ip + 5) 0 * 4294967296 +
   bytecode.getD (ip + 6) 0 * 1099511627776 +
   bytecode.getD (ip + 7) 0 * 281474976710656 +
   bytecode.getD (ip + 8) 0 * 72057594037927936,
   ip + 8)

/-- `readString()`: `while (ip < len && bytecode[ip] !== 0x00)` collect
the byte and advance — i.e. the longest prefix of non-zero bytes starting
at the *current* `ip` (the opcode handlers call it without skipping the
opcode byte first).  Returns the collected code units and the final `ip`,
left on the terminator or at the end of the buffer. -/
def readString (bytecode : List Nat) (ip : Nat) : List Nat × Nat :=
  let codeUnits := (bytecode.drop ip).takeWhile (fun b => b != 0)
  (codeUnits, ip + codeUnits.length)

/-- `push(value)`: append at the tail of the JS array = cons at the head
of the model list. -/
def push (stack : List Value) (v : Value) : List Value :=
  v :: stack

/-- `pop()`: `this.stack.pop()` — removes and returns the tail element;
on an empty array it returns `undefined` and leaves the array empty. -/
def pop (stack : List Value) : Value × List Value :=
  match stack with
  | [] => (Value.undefined, [])
  | v :: rest => (v, rest)

/-- `peek()`: `this.stack[this.stack.length - 1]`, `undefined` when empty. -/
def peek (stack : List Value) : Value :=
  stack.headD Value.undefined

/-- `printStack()` logs `this.stack.slice().join(...)` — a copy of the
stack; the snapshot it prints is the stack itself, unmodified. -/
def printStack (s : State) : List Value :=
  s.stack

/-- How `run()` ends.
`returnedMain rv`: case 0x08 with the call stack emptied — logs
`OP_RETURN (main)` and returns `rv` (spec state *Returned*).
`returnedToCaller rv`: case 0x08 with frames remaining — pushes `rv` back,
logs `OP_RETURN`, and still returns `rv` from `run()`.
`unknownOpcode op`: default case — logs `"Unknown opcode: " + op` (the
message contains the opcode byte and nothing else) and returns
`undefined` (spec state *Faulted*).
`completed`: the loop condition `ip < length` failed — `printStack()` and
an implicit `return undefined`. -/
inductive Outcome where
  | returnedMain (rv : Value)
  | returnedToCaller (rv : Value)
  | unknownOpcode (op : Nat)
  | completed
  deriving Repr, DecidableEq

/-- The JS value `run()` returns for each way of ending. -/
def jsResult : Outcome → Value
  | .returnedMain rv => rv
  | .returnedToCaller rv => rv
  | .unknownOpcode _ => Value.undefined
  | .completed => Value.undefined

/-- One iteration of the dispatch loop `for (; ip < length; ip++)`:
fetch `op = bytecode[ip]`, run the matching `switch` case, and (for the
cases that `break`) apply the for-update `ip++`.  `Sum.inr` is the next
state of a continuing loop; `Sum.inl` means `run()` returned, carrying
the outcome and the VM state at that moment. -/
def step (s : State) : (Outcome × State) ⊕ State :=
  if s.ip < s.bytecode.length then
    match s.bytecode.getD s.ip 0 with
    | 1 =>
      -- case 0x01: push(readString()) — readString starts at the opcode byte
      Sum.inr { s with
        ip := (readString s.bytecode s.ip).2 + 1
        stack := push s.stack (Value.str (readString s.bytecode s.ip).1) }
    | 2 =>
      -- case 0x02: stack.push(readFloat64())
      Sum.inr { s with
        ip := (readFloat64 s.bytecode s.ip).2 + 1
        stack := push s.stack (Value.float (readFloat64 s.bytecode s.ip).1) }
    | 3 =>
      -- case 0x03: stack.push(readUInt8() === 0x01)
      Sum.inr { s with
        ip := (readUInt8 s.bytecode s.ip).2 + 1
        stack := push s.stack (Value.bool ((readUInt8 s.bytecode s.ip).1 == some 1)) }
    | 4 =>
      -- case 0x04: pop() and discard
      Sum.inr { s with ip := s.ip + 1, stack := (pop s.stack).2 }
    | 5 =>
      -- case 0x05: push(null)
      Sum.inr { s with ip := s.ip + 1, stack := push s.stack Value.null }
    | 6 =>
      -- case 0x06: exp = readString(); ip++ (skip terminator); flags = readString()
      Sum.inr { s with
        ip := (readString s.bytecode ((readString s.bytecode s.ip).2 + 1)).2 + 1
        stack := push s.stack
          (Value.regex (readString s.bytecode s.ip).1
            (readString s.bytecode ((readString s.bytecode s.ip).2 + 1)).1) }
    | 7 =>
      -- case 0x07: push(undefined)
      Sum.inr { s with ip := s.ip + 1, stack := push s.stack Value.undefined }
    | 8 =>
      -- case 0x08: callStack.pop(); returnValue = pop(); branch on callStack.length
      if s.callStack.tail.length = 0 then
        Sum.inl (Outcome.returnedMain (pop s.stack).1,
          { s with callStack := s.callStack.tail, stack := (pop s.stack).2 })
      else
        Sum.inl (Outcome.returnedToCaller (pop s.stack).1,
          { s with callStack := s.callStack.tail
                   stack := push (pop s.stack).2 (pop s.stack).1 })
    | op =>
      -- default: log the opcode and return undefined; ip still points at it
      Sum.inl (Outcome.unknownOpcode op, s)
  else
    Sum.inl (Outcome.completed, s)

/-- The dispatch loop, run for at most `fuel` iterations; `none` means
the fuel ran out (a theorem below shows any fuel beyond the remaining
buffer length suffices, so `none` never arises from enough fuel). -/
def runFrom : Nat → State → Option (Outcome × State)
  | 0, _ => none
  | fuel + 1, s =>
    match step s with
    | Sum.inl done => some done
    | Sum.inr next => runFrom fuel next

/-- `new VM(module)` followed by `run()`. -/
def runModule (module : List (List Nat)) : Option (Outcome × State) :=
  runFrom ((VM.mk module).bytecode.length + 1) (VM.mk module)

/-- The opcode bytes the switch recognizes. -/
def isKnownOpcode (op : Nat) : Prop :=
  1 ≤ op ∧ op ≤ 8

instance (op : Nat) : Decidable (isKnownOpcode op) := by
  unfold isKnownOpcode; infer_instance

/-! Helper lemmas about a single dispatch step, shared by several of the
claim theorems below. -/

lemma le_readString_snd (bytecode : List Nat) (ip : Nat) :
    ip ≤ (readString bytecode ip).2 := by
  simp [readString]

lemma step_inr (s t : State) (h : step s = Sum.inr t) :
    s.ip < s.bytecode.length ∧ t.bytecode = s.bytecode ∧ s.ip < t.ip := by
  unfold step at h
  split at h
  · split at h
    · injection h with h; subst h
      refine ⟨by assumption, rfl, ?_⟩
      have := le_readString_snd s.bytecode s.ip
      simp only []
      omega
    · injection h with h; subst h
      exact ⟨by assumption, rfl, by simp [readFloat64]; omega⟩
    · injection h with h; subst h
      exact ⟨by assumption, rfl, by simp [readUInt8]; omega⟩
    · injection h with h; subst h
      exact ⟨by assumption, rfl, Nat.lt_succ_self s.ip⟩
    · injection h with h; subst h
      exact ⟨by assumption, rfl, Nat.lt_succ_self s.ip⟩
    · injection h with h; subst h
      refine ⟨by assumption, rfl, ?_⟩
      have h1 := le_readString_snd s.bytecode s.ip
      have h2 := le_readString_snd s.bytecode ((readString s.bytecode s.ip).2 + 1)
      simp only []
      omega
    · injection h with h; subst h
      exact ⟨by assumption, rfl, Nat.lt_succ_self s.ip⟩
    · split at h <;> simp at h
    · simp at h
  · simp at h

lemma step_unknown (s t : State) (op : Nat)
    (h : step s = Sum.inl (Outcome.unknownOpcode op, t)) :
    t = s ∧ s.ip < s.bytecode.length ∧ s.bytecode.getD s.ip 0 = op ∧
      ¬ isKnownOpcode op := by
  unfold step at h
  split at h
  · split at h
    · simp at h
    · simp at h
    · simp at h
    · simp at h
    · simp at h
    · simp at h
    · simp at h
    · split at h <;> simp at h
    · rename_i hn1 hn2 hn3 hn4 hn5 hn6 hn7 hn8
      injection h with h
      injection h with hOut hState
      injection hOut with hOp
      have d1 : s.bytecode.getD s.ip 0 ≠ 1 := hn1
      have d2 : s.bytecode.getD s.ip 0 ≠ 2 := hn2
      have d3 : s.bytecode.getD s.ip 0 ≠ 3 := hn3
      have d4 : s.bytecode.getD s.ip 0 ≠ 4 := hn4
      have d5 : s.bytecode.getD s.ip 0 ≠ 5 := hn5
      have d6 : s.bytecode.getD s.ip 0 ≠ 6 := hn6
      have d7 : s.bytecode.getD s.ip 0 ≠ 7 := hn7
      have d8 : s.bytecode.getD s.ip 0 ≠ 8 := hn8
      refine ⟨hState.symm, by assumption, hOp, ?_⟩
      unfold isKnownOpcode
      omega
  · simp at h

lemma step_completed (s t : State)
    (h : step s = Sum.inl (Outcome.completed, t)) :
    t = s ∧ s.bytecode.length ≤ s.ip := by
  unfold step at h
  split at h
  · split at h
    · simp at h
    · simp at h
    · simp at h
    · simp at h
    · simp at h
    · simp at h
    · simp at h
    · split at h <;> simp at h
    · simp at h
  · rename_i hip
    injection h with h
    injection h with hOut hState
    exact ⟨hState.symm, by omega⟩

/-- Claim C1 (code bug, evaluated at the failing input): the claim says
LOAD_STRING pushes exactly the bytes strictly between the opcode byte and
the first 0x00, so `[0x01, 0x00]` should push the empty string.  In the
code, `readString` starts collecting at the *current* `ip`, which still
points at the opcode byte `0x01`, so the program `[0x01, 0x00]` pushes
the one-code-unit string `[1]` (the opcode byte), not the empty string. -/
theorem loadString_includes_opcode_byte :
    (runModule [[1, 0]]).map (fun r => (r.1, r.2.stack)) =
      some (Outcome.completed, [Value.str [1]]) := by
  decide

/-- Claim C2, counterexample: the claim says that when RETURN still
leaves a frame on the Call Stack, the dispatch loop resumes executing
subsequent instructions and the run does not terminate.  Starting from a
state with two frames and buffer `[0x05, 0x08, 0xFF]`, the RETURN at
position 1 ends the run with outcome `returnedToCaller` while a frame is
still on the Call Stack: the `0xFF` after it is never dispatched (a
resumed loop would have faulted on it), refuting the claim. -/
theorem return_terminates_with_frames_left :
    runFrom 3
      { functions := [[5, 8, 255]], ip := 0, stack := [],
        callStack := [[5, 8, 255], [5, 8, 255]], bytecode := [5, 8, 255] } =
    some (Outcome.returnedToCaller Value.null,
      { functions := [[5, 8, 255]], ip := 1, stack := [Value.null],
        callStack := [[5, 8, 255]], bytecode := [5, 8, 255] }) := by
  decide

/-- Claim C2, amended: when RETURN executes with at least one frame
remaining after popping the current frame, the popped return value is
pushed back onto the Evaluation Stack, but the dispatch loop does not
resume: `run()` terminates immediately with that value (`return
returnValue` is reached on both branches of case 0x08). -/
theorem return_pushes_back (s : State)
    (h1 : s.ip < s.bytecode.length)
    (h2 : s.bytecode.getD s.ip 0 = 8)
    (h3 : s.callStack.tail ≠ []) :
    step s = Sum.inl (Outcome.returnedToCaller (pop s.stack).1,
      { s with callStack := s.callStack.tail,
               stack := push (pop s.stack).2 (pop s.stack).1 }) := by
  have hne : ¬ s.callStack.tail.length = 0 := by
    intro hh
    exact h3 (List.length_eq_zero.mp hh)
  unfold step
  rw [if_pos h1, h2]
  simp only [if_neg hne]

/-- Witness for `return_pushes_back` at a concrete two-frame state. -/
theorem return_pushes_back_witness :
    step ⟨[[8]], 0, [Value.null], [[8], [8]], [8]⟩ =
      Sum.inl (Outcome.returnedToCaller Value.null,
        ⟨[[8]], 0, [Value.null], [[8]], [8]⟩) :=
  return_pushes_back ⟨[[8]], 0, [Value.null], [[8], [8]], [8]⟩
    (by decide) (by decide) (by decide)

/-- Claim C3, counterexample: the claim says a fault reports both the
offending opcode byte and the instruction-pointer position at which it
occurred.  The default case logs only `"Unknown opcode: " + op` and
returns `undefined`: programs faulting on `0xFF` at position 0 and at
position 1 produce the *identical* report `unknownOpcode 255`, so the
report cannot contain the pointer position (it survives only as the `ip`
field of the VM object, which `run()` does not report). -/
theorem unknown_opcode_report_lacks_position :
    (runModule [[255]]).map Prod.fst = some (Outcome.unknownOpcode 255) ∧
    (runModule [[5, 255]]).map Prod.fst = some (Outcome.unknownOpcode 255) ∧
    (runModule [[255]]).map (fun r => r.2.ip) = some 0 ∧
    (runModule [[5, 255]]).map (fun r => r.2.ip) = some 1 := by
  decide

/-- Claim C3, amended: whenever `run()` ends with the unknown-opcode
outcome, the reported datum is the offending opcode byte only — a byte
outside the defined set {0x01..0x08} — and the final state has its
instruction pointer still on that byte of the buffer (the position is
not part of the report; `run()` returns `undefined`).  A program whose
dispatched byte is `0xFF` therefore faults reporting `255`. -/
theorem run_unknown_opcode_reports_byte (fuel : Nat) (s : State) (op : Nat)
    (t : State) (h : runFrom fuel s = some (Outcome.unknownOpcode op, t)) :
    ¬ isKnownOpcode op ∧ t.ip < t.bytecode.length ∧
      t.bytecode.getD t.ip 0 = op ∧ jsResult (Outcome.unknownOpcode op) = Value.undefined := by
  induction fuel generalizing s with
  | zero => simp [runFrom] at h
  | succ n ih =>
    rw [runFrom] at h
    cases hs : step s with
    | inl done =>
      rw [hs] at h
      injection h with h
      rw [h] at hs
      obtain ⟨hts, hlt, hop, hk⟩ := step_unknown s t op hs
      subst hts
      exact ⟨hk, hlt, hop, rfl⟩
    | inr next =>
      rw [hs] at h
      exact ih next h

/-- Witness for `run_unknown_opcode_reports_byte` on the one-byte program
`[0xFF]`. -/
theorem run_unknown_opcode_reports_byte_witness :
    ¬ isKnownOpcode 255 ∧
      (⟨[[255]], 0, [], [[255]], [255]⟩ : State).ip <
        (⟨[[255]], 0, [], [[255]], [255]⟩ : State).bytecode.length ∧
      (⟨[[255]], 0, [], [[255]], [255]⟩ : State).bytecode.getD
        (⟨[[255]], 0, [], [[255]], [255]⟩ : State).ip 0 = 255 ∧
      jsResult (Outcome.unknownOpcode 255) = Value.undefined :=
  run_unknown_opcode_reports_byte 2 (VM.mk [[255]]) 255
    ⟨[[255]], 0, [], [[255]], [255]⟩ (by decide)

/-- Claim C4, counterexample: the claim says RETURN on an empty
Evaluation Stack is a fatal StackUnderflow error rather than producing a
default value.  Running the one-instruction program `[0x08]` with its
empty stack, `this.pop()` is `Array.prototype.pop` on an empty array,
which returns `undefined` without any error: `run()` completes normally
with `undefined` as the returned value. -/
theorem return_on_empty_stack_yields_undefined :
    runModule [[8]] =
      some (Outcome.returnedMain Value.undefined,
        { functions := [[8]], ip := 0, stack := [],
          callStack := [], bytecode := [8] }) := by
  decide

/-- Claim C4, amended: a pop on an empty Evaluation Stack is not an
error: RETURN executed on an empty stack uses `undefined` as the return
value (and, for an emptied Call Stack, `run()` returns that `undefined`),
and POP on an empty stack discards nothing and execution continues. -/
theorem pop_empty_no_underflow (s : State)
    (h1 : s.ip < s.bytecode.length) (h3 : s.stack = []) :
    (s.bytecode.getD s.ip 0 = 8 → s.callStack.tail = [] →
      step s = Sum.inl (Outcome.returnedMain Value.undefined,
        { s with callStack := [], stack := [] })) ∧
    (s.bytecode.getD s.ip 0 = 4 →
      step s = Sum.inr { s with ip := s.ip + 1, stack := [] }) := by
  refine ⟨fun h2 h4 => ?_, fun h2 => ?_⟩
  · unfold step
    rw [if_pos h1, h2, h3, h4]
    simp [pop]
  · unfold step
    rw [if_pos h1, h2, h3]
    simp [pop]

/-- Witness for `pop_empty_no_underflow`: RETURN at the concrete state
of `new VM([[0x08]])`. -/
theorem pop_empty_no_underflow_witness :
    step ⟨[[8]], 0, [], [[8]], [8]⟩ =
      Sum.inl (Outcome.returnedMain Value.undefined,
        ⟨[[8]], 0, [], [], [8]⟩) :=
  (pop_empty_no_underflow ⟨[[8]], 0, [], [[8]], [8]⟩
    (by decide) rfl).1 (by decide) rfl

/-- Claim C5 (code bug, evaluated at the failing input): the claim says
`readUInt32` returns the unsigned value `b0 + 256*b1 + 65536*b2 +
16777216*b3` in `[0, 2^32)`.  The JS `|` and `<<` operators produce a
*signed* 32-bit result, so for operand bytes `[0x00, 0x00, 0x00, 0x80]`
the code returns `-2147483648`, not the unsigned `2147483648` — despite
the function being named `readUInt32`.  For a high byte below `0x80`
(bytes `[1, 2, 3, 4]` giving `0x04030201`) and for `readUInt16`
(bytes `[0xCD, 0xAB]` giving `0xABCD`, always below `2^31`) the code
does agree with the claimed unsigned little-endian composition. -/
theorem readUInt32_signed_at_failing_input :
    readUInt32 [0, 0, 0, 0, 128] 0 = (-2147483648, 4) ∧
    readUInt32 [0, 1, 2, 3, 4] 0 = (67305985, 4) ∧
    readUInt16 [0, 205, 171] 0 = (43981, 2) := by
  decide

/-- Claim C6: running the single-function module whose entry buffer is
`[0x02, <8 bytes of the little-endian IEEE-754 encoding of 3.14>, 0x08]`
returns the float 3.14 (the double with bit pattern 0x40091EB851EB851F,
which is exactly the pattern those operand bytes assemble to) and ends in
the terminal Returned state (`returnedMain`, the case-0x08 branch taken
when the Call Stack has emptied). -/
theorem run_float64_3_14 :
    (runModule [[2, 0x1F, 0x85, 0xEB, 0x51, 0xB8, 0x1E, 0x09, 0x40, 8]]).map
        Prod.fst =
      some (Outcome.returnedMain (Value.float 0x40091EB851EB851F)) := by
  decide

/-- Claim C7: LOAD_BOOL (opcode 0x03) with operand byte `b` pushes the
boolean `b == 1`: true exactly when the byte is `0x01`, false for every
other byte value (the strict JS comparison `readUInt8() === 0x01`), and
the instruction pointer advances past opcode and operand. -/
theorem load_bool_pushes_iff_one (s : State) (b : Nat)
    (h1 : s.ip < s.bytecode.length)
    (h2 : s.bytecode.getD s.ip 0 = 3)
    (h3 : s.bytecode[s.ip + 1]? = some b) :
    step s = Sum.inr
        { s with ip := s.ip + 2,
                 stack := push s.stack (Value.bool (b == 1)) } ∧
      ((b == 1) = true ↔ b = 1) := by
  constructor
  · unfold step
    rw [if_pos h1, h2]
    simp [readUInt8, h3]
  · exact beq_iff_eq

/-- Witness for `load_bool_pushes_iff_one` at operand bytes `0xFF`
(pushes false) and `0x01` (pushes true). -/
theorem load_bool_pushes_iff_one_witness :
    (step ⟨[[3, 255]], 0, [], [[3, 255]], [3, 255]⟩ =
        Sum.inr ⟨[[3, 255]], 2, [Value.bool false], [[3, 255]], [3, 255]⟩ ∧
      ((255 == 1) = true ↔ 255 = 1)) ∧
    (step ⟨[[3, 1]], 0, [], [[3, 1]], [3, 1]⟩ =
        Sum.inr ⟨[[3, 1]], 2, [Value.bool true], [[3, 1]], [3, 1]⟩ ∧
      ((1 == 1) = true ↔ 1 = 1)) :=
  ⟨load_bool_pushes_iff_one ⟨[[3, 255]], 0, [], [[3, 255]], [3, 255]⟩ 255
      (by decide) (by decide) (by decide),
    load_bool_pushes_iff_one ⟨[[3, 1]], 0, [], [[3, 1]], [3, 1]⟩ 1
      (by decide) (by decide) (by decide)⟩

/-- Claim C8: execution is a deterministic function of the bytecode
module.  Two VM instances constructed independently from the same module
start in equal states — the constructor reads nothing but its argument,
and the classes have no static or otherwise shared mutable fields for
the model to carry — so running both for any number of steps yields
identical results. -/
theorem run_deterministic_across_instances (module : List (List Nat))
    (fuel : Nat) (v1 v2 : State)
    (h1 : v1 = VM.mk module) (h2 : v2 = VM.mk module) :
    runFrom fuel v1 = runFrom fuel v2 := by
  subst h1
  subst h2
  rfl

/-- Witness for `run_deterministic_across_instances` on the module
`[[0x05, 0x08]]`, whose two runs both return `null`. -/
theorem run_deterministic_across_instances_witness :
    runFrom 3 (VM.mk [[5, 8]]) = runFrom 3 (VM.mk [[5, 8]]) ∧
      runFrom 3 (VM.mk [[5, 8]]) =
        some (Outcome.returnedMain Value.null,
          { functions := [[5, 8]], ip := 1, stack := [],
            callStack := [], bytecode := [5, 8] }) :=
  ⟨run_deterministic_across_instances [[5, 8]] 3 (VM.mk [[5, 8]])
      (VM.mk [[5, 8]]) rfl rfl,
    by decide⟩

/-- Claim C9: the dispatch loop terminates on every finite buffer.  Every
continuing step strictly increases the instruction pointer within an
unchanged buffer (`step_inr`), so `bytecode.length - ip` strictly
decreases and any fuel exceeding it makes `runFrom` reach a result —
at most buffer-length iterations from the initial state. -/
theorem run_loop_terminates (fuel : Nat) (s : State)
    (h : s.bytecode.length - s.ip < fuel) :
    (runFrom fuel s).isSome = true := by
  induction fuel generalizing s with
  | zero => omega
  | succ n ih =>
    rw [runFrom]
    cases hs : step s with
    | inl done => simp
    | inr next =>
      obtain ⟨hip, hbc, hlt⟩ := step_inr s next hs
      simp only []
      exact ih next (by rw [hbc]; omega)

/-- Witness for `run_loop_terminates` on `new VM([[0x05]])` with fuel 2. -/
theorem run_loop_terminates_witness :
    (VM.mk [[5]]).bytecode.length - (VM.mk [[5]]).ip < 2 ∧
      (runFrom 2 (VM.mk [[5]])).isSome = true :=
  ⟨by decide, run_loop_terminates 2 (VM.mk [[5]]) (by decide)⟩

/-- Claim C10: when the dispatch loop leaves because the instruction
pointer reached the end of the current buffer — no RETURN executed, no
unknown opcode met — `run()` prints the stack and returns `undefined`:
no fault is signalled, and the loop exit changes nothing, so the final
state keeps the buffer it ran and the Evaluation Stack accumulated so
far, which `printStack` reports unmodified. -/
theorem run_completed_returns_undefined (fuel : Nat) (s t : State)
    (h : runFrom fuel s = some (Outcome.completed, t)) :
    t.bytecode = s.bytecode ∧ t.bytecode.length ≤ t.ip ∧
      printStack t = t.stack ∧
      jsResult Outcome.completed = Value.undefined := by
  induction fuel generalizing s with
  | zero => simp [runFrom] at h
  | succ n ih =>
    rw [runFrom] at h
    cases hs : step s with
    | inl done =>
      rw [hs] at h
      injection h with h
      rw [h] at hs
      obtain ⟨hts, hend⟩ := step_completed s t hs
      subst hts
      exact ⟨rfl, hend, rfl, rfl⟩
    | inr next =>
      rw [hs] at h
      obtain ⟨hip, hbc, hlt⟩ := step_inr s next hs
      obtain ⟨g1, g2, g3, g4⟩ := ih next h
      exact ⟨by rw [g1, hbc], g2, g3, g4⟩

/-- Witness for `run_completed_returns_undefined` on the program
`[0x05, 0x04]` (LOAD_NULL then POP), which completes with an empty stack
and no fault. -/
theorem run_completed_returns_undefined_witness :
    (⟨[[5, 4]], 2, [], [[5, 4]], [5, 4]⟩ : State).bytecode =
        (VM.mk [[5, 4]]).bytecode ∧
      (⟨[[5, 4]], 2, [], [[5, 4]], [5, 4]⟩ : State).bytecode.length ≤
        (⟨[[5, 4]], 2, [], [[5, 4]], [5, 4]⟩ : State).ip ∧
      printStack ⟨[[5, 4]], 2, [], [[5, 4]], [5, 4]⟩ =
        (⟨[[5, 4]], 2, [], [[5, 4]], [5, 4]⟩ : State).stack ∧
      jsResult Outcome.completed = Value.undefined :=
  run_completed_returns_undefined 3 (VM.mk [[5, 4]])
    ⟨[[5, 4]], 2, [], [[5, 4]], [5, 4]⟩ (by decide)
